import Mathlib

/-!
Verification of the data-source → dataset machinery defined in
`notebooks/22-transform-datasource.ipynb`.

The notebook defines three functions:

* `read_space_delimited(filename, skiprows=None, class_labels=True, metadata=None)`
  wraps `pandas.read_csv(fd, skiprows=skiprows, skip_blank_lines=True,
  comment=None, header=None, sep=' ', dtype=str)` and then, when
  `class_labels` is true, splits off the last column as `target`; otherwise
  `target = np.zeros(data.shape[0])`.

* `process_raw_data(dataset_name, metadata=None, extract_func=None, **kwargs)`
  substitutes an empty dict for a missing `metadata`, then evaluates
  `if extract_function is None:` — but `extract_function` is a local name of
  the function (it is assigned only by the inner `def` inside that very
  branch), so this guard raises `UnboundLocalError` on every call, before
  `extract_func` is ever invoked.

* `process_lvq_pak(dataset_name='lvq-pak', metadata=None, kind='all')`
  reads `ex1.dat` (skiprows=[0,1]) and/or `ex2.dat` (skiprows=[0]) with
  `read_space_delimited`, stacking both with `np.vstack`/`np.append` for
  `kind='all'`, and raises `Exception(f'Unknown kind: ...')` otherwise.

The embedding below models a text file as a list of lines, a line as a list
of characters, and reproduces the behaviour of the pandas C tokenizer for
the exact options used by the notebook:

* `sep=' '` splits each line at every single space character; consecutive
  spaces produce empty fields, which (being empty) are read as missing
  values (`none` below);
* `comment=None` means no character is treated as a comment marker;
* `skiprows` drops the zero-indexed physical lines listed;
* `skip_blank_lines=True` drops empty lines;
* with `header=None` the column count is fixed by the first remaining row;
  a later row with more fields raises a tokenizer error (modelled as
  `Err.malformedRowError`, the spec's name for `pandas.errors.ParserError`),
  while a row with fewer fields is padded on the right with missing values;
* a file with no remaining rows raises `pandas.errors.EmptyDataError`
  (modelled as `Err.emptyDataError`).

`np.vstack` on two 2-D arrays raises `ValueError` when their column counts
differ (modelled as `Err.valueError`); otherwise it concatenates the rows.
-/

/-- A line of a text file, as its list of characters. A blank line is `[]`. -/
abbrev Line := List Char

/-- A cell of the parsed frame: `none` is a missing value (pandas `NaN`,
which is what an empty field parses to), `some f` is the field text. -/
abbrev Cell := Option (List Char)

/-- A parsed data matrix: a list of rows of cells. -/
abbrev DataMatrix := List (List Cell)

/-- A metadata dictionary, modelled as an association list. -/
abbrev Metadata := List (String × String)

/-- The target vector: either the string-label column (`class_labels=True`)
or the `np.zeros(n)` vector (`class_labels=False`), kept symbolic as its
length since its entries are all the float `0.0`. -/
inductive Target where
  | labels : List Cell → Target
  | zeros : Nat → Target
deriving DecidableEq

/-- The errors the pipeline can raise.  Names follow the spec's taxonomy:
`malformedRowError` models `pandas.errors.ParserError` ("Expected N fields,
saw M"), `emptyDataError` models `pandas.errors.EmptyDataError`,
`unsupportedKindError` models the notebook's
`raise Exception(f'Unknown kind: ...')`, `unboundLocalError` models Python's
`UnboundLocalError`, and `valueError` models the `ValueError` raised by
`np.vstack` on mismatched shapes. -/
inductive Err where
  | malformedRowError (expected saw : Nat)
  | emptyDataError
  | unsupportedKindError (kind : String)
  | unboundLocalError (name : String)
  | valueError
deriving DecidableEq

/-- Splitting of one line by the pandas tokenizer with `sep=' '`: every
single space character is a separator, so `k` consecutive spaces produce
`k - 1` empty fields between their neighbours. -/
def splitOnSpace : Line → List (List Char)
  | [] => [[]]
  | c :: cs =>
    if c = ' ' then [] :: splitOnSpace cs
    else
      match splitOnSpace cs with
      | [] => [[c]]
      | f :: rest => (c :: f) :: rest

/-- Tokenize a line into cells: empty fields are missing values (`NaN`),
exactly as `pandas.read_csv` reads an empty string field. -/
def tokenize (line : Line) : List Cell :=
  (splitOnSpace line).map (fun f => if f = [] then none else some f)

/-- Right-pad a row with missing values up to the expected column count,
as the pandas C parser does for a row with fewer fields than the first. -/
def padTo (w : Nat) (r : List Cell) : List Cell :=
  r ++ List.replicate (w - r.length) none

/-- Check one row against the expected column count `w`: a row with more
fields raises the tokenizer error, a shorter one is padded. -/
def checkRow (w : Nat) (l : Line) : Except Err (List Cell) :=
  let r := tokenize l
  if w < r.length then .error (.malformedRowError w r.length)
  else .ok (padTo w r)

/-- Effectful map over a list in the `Except` monad, stopping at the first
error — the row loop of the pandas parser. -/
def mapExcept (f : α → Except Err β) : List α → Except Err (List β)
  | [] => .ok []
  | a :: as =>
    match f a with
    | .error e => .error e
    | .ok b =>
      match mapExcept f as with
      | .error e => .error e
      | .ok bs => .ok (b :: bs)

/-- The lines that survive `skiprows` (zero-indexed physical line numbers)
and `skip_blank_lines=True`. -/
def keptLines (lines : List Line) (skiprows : List Nat) : List Line :=
  ((lines.enum.filter (fun p => decide (¬ p.1 ∈ skiprows))).map Prod.snd).filter
    (fun l => decide (l ≠ []))

/-- Parse the kept lines: the first kept row fixes the column count, every
row is checked against it, and then the last column is split off as `target`
when `class_labels` is true, while `class_labels=False` yields
`target = np.zeros(row_count)`. The `metadata` argument is returned
unchanged, exactly as in the notebook's `read_space_delimited`. -/
def readKept (kept : List Line) (class_labels : Bool) (metadata : Option Metadata) :
    Except Err (DataMatrix × Target × Option Metadata) :=
  match kept with
  | [] => .error .emptyDataError
  | first :: rest =>
    match mapExcept (checkRow (tokenize first).length) (first :: rest) with
    | .error e => .error e
    | .ok rows =>
      if class_labels then
        .ok (rows.map List.dropLast, .labels (rows.map (fun r => r.getLastD none)), metadata)
      else
        .ok (rows, .zeros rows.length, metadata)

/-- The notebook's `read_space_delimited`: `pandas.read_csv` with
`skiprows`, `skip_blank_lines=True`, `comment=None`, `header=None`,
`sep=' '`, `dtype=str`, followed by the label-column split. -/
def read_space_delimited (lines : List Line) (skiprows : List Nat)
    (class_labels : Bool) (metadata : Option Metadata) :
    Except Err (DataMatrix × Target × Option Metadata) :=
  readKept (keptLines lines skiprows) class_labels metadata

/-- A value stored in the `dset_opts` dictionary returned by the processing
functions. -/
inductive Value where
  | vstr : String → Value
  | vmeta : Option Metadata → Value
  | vdata : DataMatrix → Value
  | vtarget : Target → Value
deriving DecidableEq

/-- The `dset_opts` dictionary: a string-keyed association list, as built
by the dict literal closing `process_raw_data` and `process_lvq_pak`. -/
abbrev DsetOpts := List (String × Value)

/-- The dict literal `{'dataset_name': ..., 'metadata': ..., 'data': ...,
'target': ...}` shared by both processing functions. -/
def mkDsetOpts (dataset_name : String) (metadata : Option Metadata)
    (data : DataMatrix) (target : Target) : DsetOpts :=
  [("dataset_name", Value.vstr dataset_name),
   ("metadata", Value.vmeta metadata),
   ("data", Value.vdata data),
   ("target", Value.vtarget target)]

/-- An extraction function, as expected by `process_raw_data`:
`extract_func(metadata=..., **kwargs) -> (data, target, metadata)`. -/
abbrev ExtractFunc := Option Metadata → Except Err (DataMatrix × Target × Option Metadata)

/-- The notebook's `process_raw_data` template. Python's scoping rules make
`extract_function` a local variable of the whole function body (it is
assigned by the inner `def` inside the `if extract_function is None:`
branch), so the guard reads a local name before any assignment to it has
executed and raises `UnboundLocalError` on every call — whether or not
`extract_func` was provided — after the `metadata` substitution
(`if metadata is None: metadata = {}`) and before `extract_func` is ever
invoked. The result therefore does not depend on `extract_func` at all. -/
def process_raw_data (dataset_name : String) (metadata : Option Metadata)
    (extract_func : Option ExtractFunc) : Except Err DsetOpts :=
  let _md : Metadata := metadata.getD []
  .error (.unboundLocalError "extract_function")

/-- The two lvq-pak raw files, `ex1.dat` and `ex2.dat`, each as its list of
lines. -/
structure LvqFiles where
  ex1 : List Line
  ex2 : List Line

/-- The argument `process_lvq_pak` passes as `metadata=` to
`read_space_delimited`: the caller's dictionary, with `{}` substituted for
a missing one by `if metadata is None: metadata = {}`. -/
def lvq_metadata_arg (metadata : Option Metadata) : Option Metadata :=
  some (metadata.getD [])

/-- `np.vstack((a, b))` on the 2-D object arrays produced by the parser:
both are rectangular with the width of their first row, so the stack
succeeds exactly when those widths agree, and raises `ValueError`
otherwise. -/
def vstack (a b : DataMatrix) : Except Err DataMatrix :=
  match a.head?, b.head? with
  | some r, some s => if r.length = s.length then .ok (a ++ b) else .error .valueError
  | _, _ => .ok (a ++ b)

/-- `np.append(target1, target2)` for the label vectors produced with
`class_labels=True` (the only case `process_lvq_pak` reaches):
concatenation. The remaining cases are given the analogous meaning; they do
not occur in this pipeline. -/
def npAppend : Target → Target → Target
  | .labels a, .labels b => .labels (a ++ b)
  | .zeros m, .zeros n => .zeros (m + n)
  | t, _ => t

/-- The notebook's `process_lvq_pak`: substitutes `{}` for a missing
`metadata`, reads `ex1.dat` with `skiprows=[0,1]` for `kind='train'`,
`ex2.dat` with `skiprows=[0]` for `kind='test'`, both (stacked with
`np.vstack` and `np.append`) for `kind='all'`, and raises
`Exception(f'Unknown kind: {kind}')` for any other `kind`, finally wrapping
the arrays in the `dset_opts` dictionary. -/
def process_lvq_pak (dataset_name : String) (metadata : Option Metadata)
    (fs : LvqFiles) (kind : String) : Except Err DsetOpts :=
  if kind = "train" then
    match read_space_delimited fs.ex1 [0, 1] true (lvq_metadata_arg metadata) with
    | .error e => .error e
    | .ok (data, target, md') => .ok (mkDsetOpts dataset_name md' data target)
  else if kind = "test" then
    match read_space_delimited fs.ex2 [0] true (lvq_metadata_arg metadata) with
    | .error e => .error e
    | .ok (data, target, md') => .ok (mkDsetOpts dataset_name md' data target)
  else if kind = "all" then
    match read_space_delimited fs.ex1 [0, 1] true (lvq_metadata_arg metadata) with
    | .error e => .error e
    | .ok (data1, target1, md1) =>
      match read_space_delimited fs.ex2 [0] true md1 with
      | .error e => .error e
      | .ok (data2, target2, md2) =>
        match vstack data1 data2 with
        | .error e => .error e
        | .ok data => .ok (mkDsetOpts dataset_name md2 data (npAppend target1 target2))
  else .error (.unsupportedKindError kind)

/-- Number of maximal runs of non-whitespace characters in a line — the
field count the spec's words ("fields separated by runs of whitespace")
would predict; stated for comparison with the tokenizer actually used. -/
def maximalRunsAux : Bool → Line → Nat
  | _, [] => 0
  | inRun, c :: cs =>
    if c.isWhitespace then maximalRunsAux false cs
    else (if inRun then 0 else 1) + maximalRunsAux true cs

/-- Number of maximal non-whitespace runs in a line. -/
def maximalRuns (l : Line) : Nat := maximalRunsAux false l

/-! ### Basic lemmas about the tokenizer -/

theorem splitOnSpace_ne_nil (l : Line) : splitOnSpace l ≠ [] := by
  cases l with
  | nil => simp [splitOnSpace]
  | cons c cs =>
    rw [splitOnSpace]
    split
    · simp
    · cases h : splitOnSpace cs <;> simp

theorem length_splitOnSpace (l : Line) :
    (splitOnSpace l).length = l.countP (fun c => c = ' ') + 1 := by
  induction l with
  | nil => simp [splitOnSpace]
  | cons c cs ih =>
    rw [splitOnSpace, List.countP_cons]
    by_cases hc : c = ' '
    · simp [hc, ih]
    · simp only [if_neg hc]
      cases h : splitOnSpace cs with
      | nil => exact absurd h (splitOnSpace_ne_nil cs)
      | cons f rest =>
        simp only [List.length_cons]
        rw [h] at ih
        simp only [List.length_cons] at ih
        simp [hc]
        omega

theorem tokenize_length (l : Line) :
    (tokenize l).length = l.countP (fun c => c = ' ') + 1 := by
  rw [tokenize, List.length_map, length_splitOnSpace]

theorem tokenize_pos (l : Line) : 0 < (tokenize l).length := by
  rw [tokenize_length]; omega

theorem padTo_self {w : Nat} {r : List Cell} (h : r.length = w) : padTo w r = r := by
  simp [padTo, h]

/-! ### Lemmas about the row loop -/

theorem mapExcept_ok_length {f : α → Except Err β} {l : List α} {r : List β}
    (h : mapExcept f l = .ok r) : r.length = l.length := by
  induction l generalizing r with
  | nil => simp [mapExcept] at h; simp [← h]
  | cons a as ih =>
    rw [mapExcept] at h
    cases hf : f a with
    | error e => rw [hf] at h; exact absurd h (by simp)
    | ok b =>
      rw [hf] at h
      cases hm : mapExcept f as with
      | error e => rw [hm] at h; exact absurd h (by simp)
      | ok bs =>
        rw [hm] at h
        simp at h
        simp [← h, ih hm]

theorem mapExcept_map {f : α → Except Err β} {g : α → β} {l : List α}
    (h : ∀ x ∈ l, f x = .ok (g x)) : mapExcept f l = .ok (l.map g) := by
  induction l with
  | nil => simp [mapExcept]
  | cons a as ih =>
    rw [mapExcept, h a (by simp), ih (fun x hx => h x (by simp [hx]))]
    simp

theorem mapExcept_ok_getElem? {f : α → Except Err β} {l : List α} {r : List β}
    (h : mapExcept f l = .ok r) {i : Nat} {x : α} (hi : l[i]? = some x) :
    ∃ y, r[i]? = some y ∧ f x = .ok y := by
  induction l generalizing r i with
  | nil => simp at hi
  | cons a as ih =>
    rw [mapExcept] at h
    cases hf : f a with
    | error e => rw [hf] at h; exact absurd h (by simp)
    | ok b =>
      rw [hf] at h
      cases hm : mapExcept f as with
      | error e => rw [hm] at h; exact absurd h (by simp)
      | ok bs =>
        rw [hm] at h
        simp at h
        cases i with
        | zero =>
          simp at hi
          exact ⟨b, by simp [← h], by rw [← hi]; exact hf⟩
        | succ j =>
          simp at hi
          obtain ⟨y, hy, hfy⟩ := ih hm hi
          exact ⟨y, by simp [← h, hy], hfy⟩

theorem mapExcept_ok_forall {f : α → Except Err β} {l : List α} {r : List β}
    (h : mapExcept f l = .ok r) : ∀ x ∈ l, ∃ y, f x = .ok y := by
  induction l generalizing r with
  | nil => simp
  | cons a as ih =>
    rw [mapExcept] at h
    cases hf : f a with
    | error e => rw [hf] at h; exact absurd h (by simp)
    | ok b =>
      rw [hf] at h
      cases hm : mapExcept f as with
      | error e => rw [hm] at h; exact absurd h (by simp)
      | ok bs =>
        intro x hx
        rcases List.mem_cons.mp hx with hx | hx
        · exact hx ▸ ⟨b, hf⟩
        · exact ih hm x hx

theorem mapExcept_error_mem {f : α → Except Err β} {l : List α} {e : Err}
    (h : mapExcept f l = .error e) : ∃ x ∈ l, f x = .error e := by
  induction l with
  | nil => simp [mapExcept] at h
  | cons a as ih =>
    rw [mapExcept] at h
    cases hf : f a with
    | error e' =>
      rw [hf] at h
      simp at h
      exact ⟨a, by simp, by rw [hf, h]⟩
    | ok b =>
      rw [hf] at h
      cases hm : mapExcept f as with
      | error e' =>
        rw [hm] at h
        simp at h
        obtain ⟨x, hx, hfx⟩ := ih (by rw [hm, h])
        exact ⟨x, by simp [hx], hfx⟩
      | ok bs => rw [hm] at h; exact absurd h (by simp)

theorem checkRow_ok_of_le {w : Nat} {l : Line} (h : (tokenize l).length ≤ w) :
    checkRow w l = .ok (padTo w (tokenize l)) := by
  rw [checkRow]
  simp [Nat.not_lt.mpr h]

theorem checkRow_ok_inv {w : Nat} {l : Line} {r : List Cell}
    (h : checkRow w l = .ok r) :
    r = padTo w (tokenize l) ∧ (tokenize l).length ≤ w := by
  rw [checkRow] at h
  by_cases hw : w < (tokenize l).length
  · simp [hw] at h
  · simp [hw] at h
    exact ⟨h.symm, Nat.not_lt.mp hw⟩

theorem checkRow_error_inv {w : Nat} {l : Line} {e : Err}
    (h : checkRow w l = .error e) :
    e = .malformedRowError w (tokenize l).length ∧ w < (tokenize l).length := by
  rw [checkRow] at h
  by_cases hw : w < (tokenize l).length
  · simp [hw] at h
    exact ⟨h.symm, hw⟩
  · simp [hw] at h

/-! ### Characterisation and inversion of the parser -/

theorem readKept_ok_uniform {first : Line} {rest : List Line} {md : Option Metadata}
    (hw : ∀ l ∈ first :: rest, (tokenize l).length ≤ (tokenize first).length) :
    readKept (first :: rest) true md =
      .ok ((first :: rest).map (fun l => (padTo (tokenize first).length (tokenize l)).dropLast),
           .labels ((first :: rest).map
             (fun l => (padTo (tokenize first).length (tokenize l)).getLastD none)),
           md) := by
  rw [readKept, mapExcept_map (fun x hx => checkRow_ok_of_le (hw x hx))]
  simp [List.map_map, Function.comp]

theorem readKept_ok_inv {kept : List Line} {cl : Bool} {md : Option Metadata}
    {data : DataMatrix} {t : Target} {md' : Option Metadata}
    (h : readKept kept cl md = .ok (data, t, md')) :
    data.length = kept.length ∧ md' = md ∧
      (cl = true → ∃ ls, t = .labels ls ∧ ls.length = kept.length) ∧
      (cl = false → t = .zeros kept.length) := by
  cases kept with
  | nil => simp [readKept] at h
  | cons first rest =>
    rw [readKept] at h
    cases hm : mapExcept (checkRow (tokenize first).length) (first :: rest) with
    | error e => rw [hm] at h; exact absurd h (by simp)
    | ok rows =>
      rw [hm] at h
      have hlen := mapExcept_ok_length hm
      cases cl with
      | true =>
        simp only [if_true] at h
        simp at h
        obtain ⟨hdata, ht, hmd⟩ := h
        exact ⟨by simp [← hdata, hlen], hmd.symm,
          fun _ => ⟨_, ht.symm, by simp [hlen]⟩,
          by simp⟩
      | false =>
        simp only [if_false] at h
        simp at h
        obtain ⟨hdata, ht, hmd⟩ := h
        exact ⟨by simp [← hdata, hlen], hmd.symm, by simp,
          fun _ => by simp [← ht, ← hdata, hlen]⟩

theorem readKept_error_inv {kept : List Line} {cl : Bool} {md : Option Metadata} {e : Err}
    (h : readKept kept cl md = .error e) :
    e = .emptyDataError ∨ ∃ w s, e = .malformedRowError w s := by
  cases kept with
  | nil =>
    rw [readKept] at h
    simp at h
    exact .inl h.symm
  | cons first rest =>
    rw [readKept] at h
    cases hm : mapExcept (checkRow (tokenize first).length) (first :: rest) with
    | error e' =>
      rw [hm] at h
      simp at h
      obtain ⟨x, _, hfx⟩ := mapExcept_error_mem hm
      obtain ⟨he, _⟩ := checkRow_error_inv hfx
      exact .inr ⟨_, _, by rw [← h, he]⟩
    | ok rows =>
      rw [hm] at h
      cases cl <;> simp at h

theorem read_error_inv {lines : List Line} {skiprows : List Nat} {cl : Bool}
    {md : Option Metadata} {e : Err}
    (h : read_space_delimited lines skiprows cl md = .error e) :
    e = .emptyDataError ∨ ∃ w s, e = .malformedRowError w s :=
  readKept_error_inv h

/-! ### The kept lines for skiprows = [0, 1] -/

theorem enumFrom_filter_big (rest : List Line) : ∀ n, 2 ≤ n →
    (List.enumFrom n rest).filter (fun p => decide (¬ p.1 ∈ ([0, 1] : List Nat))) =
      List.enumFrom n rest := by
  induction rest with
  | nil => intro n _; simp
  | cons a as ih =>
    intro n hn
    rw [List.enumFrom_cons, List.filter_cons,
      if_pos (by simp; omega), ih (n + 1) (by omega)]

theorem keptLines_cons_cons (l0 l1 : Line) (rest : List Line) :
    keptLines (l0 :: l1 :: rest) [0, 1] = rest.filter (fun l => decide (l ≠ [])) := by
  rw [keptLines, List.enum_cons, List.enumFrom_cons, List.filter_cons, List.filter_cons,
    if_neg (by simp), if_neg (by simp),
    enumFrom_filter_big rest (1 + 1) (by omega), List.enumFrom_map_snd]

/-! ### Lemmas about the stacking step and the processing function -/

theorem vstack_ok {a b : DataMatrix}
    (h : a.head?.map List.length = b.head?.map List.length) :
    vstack a b = .ok (a ++ b) := by
  rw [vstack]
  cases ha : a.head? with
  | none =>
    cases hb : b.head? with
    | none => rfl
    | some s => simp [ha, hb] at h
  | some r =>
    cases hb : b.head? with
    | none => simp [ha, hb] at h
    | some s =>
      rw [ha, hb] at h
      simp at h
      simp [h]

theorem vstack_error_inv {a b : DataMatrix} {e : Err}
    (h : vstack a b = .error e) : e = .valueError := by
  rw [vstack] at h
  cases ha : a.head? <;> cases hb : b.head? <;> simp [ha, hb] at h
  split at h
  · simp at h
  · simp at h; exact h.symm

theorem process_lvq_pak_ok_shape {n : String} {md : Option Metadata} {fs : LvqFiles}
    {kind : String} {o : DsetOpts} (h : process_lvq_pak n md fs kind = .ok o) :
    ∃ m d t, o = mkDsetOpts n m d t := by
  rw [process_lvq_pak] at h
  split at h
  · split at h
    · simp at h
    · exact ⟨_, _, _, (Except.ok.inj h).symm⟩
  · split at h
    · split at h
      · simp at h
      · exact ⟨_, _, _, (Except.ok.inj h).symm⟩
    · split at h
      · split at h
        · simp at h
        · split at h
          · simp at h
          · split at h
            · simp at h
            · exact ⟨_, _, _, (Except.ok.inj h).symm⟩
      · simp at h

theorem countP_ne_add_countP_eq (rest : List Line) :
    rest.countP (fun l => decide (l ≠ [])) + rest.countP (fun l => decide (l = [])) =
      rest.length := by
  induction rest with
  | nil => simp
  | cons a as ih =>
    by_cases ha : a = [] <;> simp [List.countP_cons, ha, ← ih] <;> omega

/-! ### The claims -/

/-- C1: the parser never special-cases any character as a comment marker:
whenever parsing with the label column succeeds, a kept row containing the
field `#` keeps it verbatim in the parsed output (it is never dropped or
truncated as a comment), and when `#` is the row's last field and the row
has the expected width it becomes the row's label. -/
theorem claim_C1_hash_label_preserved (lines : List Line) (skiprows : List Nat)
    (md : Option Metadata) (first : Line) (rest : List Line)
    (data : DataMatrix) (tgt : List Cell) (md' : Option Metadata) (i : Nat) (l : Line)
    (hk : keptLines lines skiprows = first :: rest)
    (hok : read_space_delimited lines skiprows true md = .ok (data, .labels tgt, md'))
    (hi : (first :: rest)[i]? = some l) :
    (some ['#'] ∈ tokenize l →
      ∃ drow c, data[i]? = some drow ∧ tgt[i]? = some c ∧ some ['#'] ∈ drow ++ [c]) ∧
    ((tokenize l).length = (tokenize first).length →
      (tokenize l).getLast? = some (some ['#']) →
      tgt[i]? = some (some ['#'])) := by
  rw [read_space_delimited, hk, readKept] at hok
  cases hm : mapExcept (checkRow (tokenize first).length) (first :: rest) with
  | error e => rw [hm] at hok; simp at hok
  | ok rows =>
    rw [hm] at hok
    simp at hok
    obtain ⟨hdata, htgt, -⟩ := hok
    obtain ⟨y, hy, hcy⟩ := mapExcept_ok_getElem? hm hi
    obtain ⟨hyeq, hyle⟩ := checkRow_ok_inv hcy
    have hylen : y.length = (tokenize first).length := by
      rw [hyeq, padTo]
      simp
      omega
    have hyne : y ≠ [] := by
      intro hco
      rw [hco] at hylen
      have := tokenize_pos first
      simp at hylen
      omega
    constructor
    · intro hmem
      refine ⟨y.dropLast, y.getLastD none, ?_, ?_, ?_⟩
      · rw [← hdata, List.getElem?_map, hy]
        rfl
      · rw [← htgt, List.getElem?_map, hy]
        simp [List.getLastD_eq_getLast?]
      · rw [List.getLastD_eq_getLast?, List.getLast?_eq_getLast y hyne]
        simp only [Option.getD_some]
        rw [List.dropLast_append_getLast hyne, hyeq, padTo]
        exact List.mem_append_left _ hmem
    · intro hwidth hlast
      rw [padTo_self hwidth] at hyeq
      rw [← htgt, List.getElem?_map, hy]
      simp [hyeq, List.getLastD_eq_getLast?, hlast]

/-- C1 witness: the regression file whose single row is `a #` parses with
label `#`, and the `#` cell appears in the parsed row. -/
theorem claim_C1_hash_label_preserved_witness :
    (some ['#'] ∈ tokenize ['a', ' ', '#'] →
      ∃ drow c, ([[some ['a']]] : DataMatrix)[0]? = some drow ∧
        (([some ['#']] : List Cell))[0]? = some c ∧ some ['#'] ∈ drow ++ [c]) ∧
    ((tokenize ['a', ' ', '#']).length = (tokenize ['a', ' ', '#']).length →
      (tokenize ['a', ' ', '#']).getLast? = some (some ['#']) →
      (([some ['#']] : List Cell))[0]? = some (some ['#'])) :=
  claim_C1_hash_label_preserved [['a', ' ', '#']] [] none ['a', ' ', '#'] []
    [[some ['a']]] [some ['#']] none 0 ['a', ' ', '#'] rfl rfl rfl

/-- C2: with the label column enabled, on a well-formed file (all kept rows
have the first kept row's field count) the parser returns, for each row, the
last field as its target entry and all preceding fields as its data row;
the target length equals the number of data rows and each data row is one
field narrower than the raw row width. -/
theorem claim_C2_label_split (lines : List Line) (skiprows : List Nat)
    (md : Option Metadata) (first : Line) (rest : List Line)
    (hk : keptLines lines skiprows = first :: rest)
    (hw : ∀ l ∈ first :: rest, (tokenize l).length = (tokenize first).length) :
    read_space_delimited lines skiprows true md =
      .ok ((first :: rest).map (fun l => (tokenize l).dropLast),
           .labels ((first :: rest).map (fun l => (tokenize l).getLastD none)), md) ∧
    ((first :: rest).map (fun l => (tokenize l).getLastD none)).length =
      (first :: rest).length ∧
    ∀ row ∈ (first :: rest).map (fun l => (tokenize l).dropLast),
      row.length + 1 = (tokenize first).length := by
  have hpad : ∀ l ∈ first :: rest,
      padTo (tokenize first).length (tokenize l) = tokenize l :=
    fun l hl => padTo_self (hw l hl)
  refine ⟨?_, by simp, ?_⟩
  · rw [read_space_delimited, hk,
      readKept_ok_uniform (fun l hl => le_of_eq (hw l hl)),
      List.map_congr_left (fun l hl => by rw [hpad l hl] :
        ∀ l ∈ first :: rest, (padTo (tokenize first).length (tokenize l)).dropLast
          = (tokenize l).dropLast),
      List.map_congr_left (fun l hl => by rw [hpad l hl] :
        ∀ l ∈ first :: rest, (padTo (tokenize first).length (tokenize l)).getLastD none
          = (tokenize l).getLastD none)]
  · intro row hrow
    obtain ⟨l, hl, rfl⟩ := List.mem_map.mp hrow
    rw [List.length_dropLast]
    have hp := tokenize_pos l
    have hww := hw l hl
    omega

/-- C2 witness: a two-row, three-column file. -/
theorem claim_C2_label_split_witness :
    read_space_delimited [['1', ' ', '2', ' ', 'A'], ['3', ' ', '4', ' ', 'B']] [] true none =
      .ok (([['1', ' ', '2', ' ', 'A'], ['3', ' ', '4', ' ', 'B']] : List Line).map
             (fun l => (tokenize l).dropLast),
           .labels (([['1', ' ', '2', ' ', 'A'], ['3', ' ', '4', ' ', 'B']] : List Line).map
             (fun l => (tokenize l).getLastD none)), none) ∧
    (([['1', ' ', '2', ' ', 'A'], ['3', ' ', '4', ' ', 'B']] : List Line).map
        (fun l => (tokenize l).getLastD none)).length =
      ([['1', ' ', '2', ' ', 'A'], ['3', ' ', '4', ' ', 'B']] : List Line).length ∧
    ∀ row ∈ ([['1', ' ', '2', ' ', 'A'], ['3', ' ', '4', ' ', 'B']] : List Line).map
        (fun l => (tokenize l).dropLast),
      row.length + 1 = (tokenize ['1', ' ', '2', ' ', 'A']).length :=
  claim_C2_label_split [['1', ' ', '2', ' ', 'A'], ['3', ' ', '4', ' ', 'B']] [] none
    ['1', ' ', '2', ' ', 'A'] [['3', ' ', '4', ' ', 'B']] rfl (by decide)

/-- C3 counterexample: on the line `a␣␣b` (two consecutive spaces) the
tokenizer produces three fields — `a`, an empty (missing) field, and `b` —
while the line has only two maximal non-whitespace runs, so a maximal run
of spaces does not act as a single separator; the parsed row of the
one-line file is three cells wide. -/
theorem claim_C3_counterexample :
    tokenize ['a', ' ', ' ', 'b'] = [some ['a'], none, some ['b']] ∧
    maximalRuns ['a', ' ', ' ', 'b'] = 2 ∧
    (tokenize ['a', ' ', ' ', 'b']).length ≠ maximalRuns ['a', ' ', ' ', 'b'] ∧
    read_space_delimited [['a', ' ', ' ', 'b']] [] false none =
      .ok ([[some ['a'], none, some ['b']]], .zeros 1, none) :=
  ⟨by decide, by decide, by decide, rfl⟩

/-- C3 amended: the parser splits every row at each single space character
(`sep=' '`), not on maximal whitespace runs: every space is a separator,
consecutive spaces yield empty fields read as missing values, other
whitespace is not a separator, and so the parsed field count of a line is
the number of its space characters plus one. -/
theorem claim_C3_amended_split_single_space (l : Line) :
    (tokenize l).length = l.countP (fun c => c = ' ') + 1 :=
  tokenize_length l

/-- C4 counterexample: a file whose second row has fewer fields than the
first is not rejected: the parser returns a result, padding the short row
with a missing value (which then becomes its label). -/
theorem claim_C4_counterexample :
    (tokenize ['c']).length ≠ (tokenize ['a', ' ', 'b']).length ∧
    keptLines [['a', ' ', 'b'], ['c']] [] = [['a', ' ', 'b'], ['c']] ∧
    read_space_delimited [['a', ' ', 'b'], ['c']] [] true none =
      .ok ([[some ['a']], [some ['c']]], .labels [some ['b'], none], none) :=
  ⟨by decide, rfl, rfl⟩

/-- C4 amended: the parser fails with `MalformedRowError` precisely when
some kept row has MORE fields than the first kept row; a row with fewer
fields is accepted and right-padded with missing values. -/
theorem claim_C4_amended_malformed_iff (lines : List Line) (skiprows : List Nat)
    (cl : Bool) (md : Option Metadata) (first : Line) (rest : List Line)
    (hk : keptLines lines skiprows = first :: rest) :
    (∃ w s, read_space_delimited lines skiprows cl md =
        .error (.malformedRowError w s)) ↔
      ∃ l ∈ first :: rest, (tokenize first).length < (tokenize l).length := by
  rw [read_space_delimited, hk, readKept]
  cases hm : mapExcept (checkRow (tokenize first).length) (first :: rest) with
  | error e =>
    constructor
    · intro _
      obtain ⟨x, hx, hfx⟩ := mapExcept_error_mem hm
      obtain ⟨-, hlt⟩ := checkRow_error_inv hfx
      exact ⟨x, hx, hlt⟩
    · intro _
      obtain ⟨x, hx, hfx⟩ := mapExcept_error_mem hm
      obtain ⟨he, -⟩ := checkRow_error_inv hfx
      exact ⟨(tokenize first).length, (tokenize x).length, by rw [he]⟩
  | ok rows =>
    constructor
    · rintro ⟨w, s, hco⟩
      cases cl <;> simp at hco
    · rintro ⟨l, hl, hlt⟩
      obtain ⟨y, hy⟩ := mapExcept_ok_forall hm l hl
      obtain ⟨-, hle⟩ := checkRow_ok_inv hy
      omega

/-- C4 amended witness: a file whose second row has three fields against a
first row of one. -/
theorem claim_C4_amended_malformed_iff_witness :
    (∃ w s, read_space_delimited [['a'], ['b', ' ', 'c']] [] true none =
        .error (.malformedRowError w s)) ↔
      ∃ l ∈ ([['a'], ['b', ' ', 'c']] : List Line),
        (tokenize ['a']).length < (tokenize l).length :=
  claim_C4_amended_malformed_iff [['a'], ['b', ' ', 'c']] [] true none
    ['a'] [['b', ' ', 'c']] rfl

/-- C6: `skip_rows` removes the zero-indexed raw lines and blank lines are
skipped silently: for a file whose first two lines (a count header and a
comment, both non-blank) are skipped, a successful parse has exactly
(total line count) − 2 − (number of blank lines) data rows. -/
theorem claim_C6_skiprows_and_blanks (lines : List Line) (l0 l1 : Line)
    (rest : List Line) (cl : Bool) (md : Option Metadata) (data : DataMatrix)
    (t : Target) (md' : Option Metadata)
    (hl : lines = l0 :: l1 :: rest) (h0 : l0 ≠ []) (h1 : l1 ≠ [])
    (hok : read_space_delimited lines [0, 1] cl md = .ok (data, t, md')) :
    data.length = lines.length - 2 - lines.countP (fun l => decide (l = [])) := by
  subst hl
  rw [read_space_delimited, keptLines_cons_cons] at hok
  have hdl := (readKept_ok_inv hok).1
  have hcnt := countP_ne_add_countP_eq rest
  rw [List.countP_eq_length_filter] at hcnt
  simp only [List.length_cons, List.countP_cons, h0, h1]
  simp [h0, h1]
  omega

/-- C6 witness: a five-line file (header, comment, data, blank, data)
parsed with skiprows `[0, 1]` yields 5 − 2 − 1 = 2 data rows. -/
theorem claim_C6_skiprows_and_blanks_witness :
    ([[], []] : DataMatrix).length =
      ([['h'], ['c'], ['a'], [], ['b']] : List Line).length - 2 -
        ([['h'], ['c'], ['a'], [], ['b']] : List Line).countP
          (fun l => decide (l = [])) :=
  claim_C6_skiprows_and_blanks [['h'], ['c'], ['a'], [], ['b']] ['h'] ['c']
    [['a'], [], ['b']] true none [[], []] (.labels [some ['a'], some ['b']]) none
    rfl (by decide) (by decide) rfl

/-- Error inversion for `process_lvq_pak`: an error is the unknown-kind
exception (exactly when `kind` is outside `train`/`test`/`all`), a parser
error, or the `np.vstack` shape error. -/
theorem process_lvq_pak_error_inv {n : String} {md : Option Metadata} {fs : LvqFiles}
    {kind : String} {e : Err} (h : process_lvq_pak n md fs kind = .error e) :
    (kind ≠ "train" ∧ kind ≠ "test" ∧ kind ≠ "all" ∧
        e = .unsupportedKindError kind) ∨
      e = .emptyDataError ∨ (∃ w s, e = .malformedRowError w s) ∨ e = .valueError := by
  rw [process_lvq_pak] at h
  split at h
  · split at h
    · rename_i e' heq
      simp at h
      subst h
      rcases read_error_inv heq with h' | h'
      · exact .inr (.inl h')
      · exact .inr (.inr (.inl h'))
    · simp at h
  · split at h
    · split at h
      · rename_i e' heq
        simp at h
        subst h
        rcases read_error_inv heq with h' | h'
        · exact .inr (.inl h')
        · exact .inr (.inr (.inl h'))
      · simp at h
    · split at h
      · split at h
        · rename_i e' heq
          simp at h
          subst h
          rcases read_error_inv heq with h' | h'
          · exact .inr (.inl h')
          · exact .inr (.inr (.inl h'))
        · split at h
          · rename_i e' heq
            simp at h
            subst h
            rcases read_error_inv heq with h' | h'
            · exact .inr (.inl h')
            · exact .inr (.inr (.inl h'))
          · split at h
            · rename_i e' heq
              simp at h
              subst h
              exact .inr (.inr (.inr (vstack_error_inv heq)))
            · simp at h
      · rename_i hk1 hk2 hk3
        simp at h
        exact .inl ⟨hk1, hk2, hk3, h.symm⟩

/-- C5: `process_lvq_pak` fails with the unknown-kind error for every
`kind` outside `train`/`test`/`all`, and for a `kind` in that set it never
raises that error (its failures are parser or stacking errors). -/
theorem claim_C5_unsupported_kind :
    (∀ (n : String) (md : Option Metadata) (fs : LvqFiles) (kind : String),
        kind ≠ "train" → kind ≠ "test" → kind ≠ "all" →
        process_lvq_pak n md fs kind = .error (.unsupportedKindError kind)) ∧
    (∀ (n : String) (md : Option Metadata) (fs : LvqFiles) (kind : String) (e : Err),
        (kind = "train" ∨ kind = "test" ∨ kind = "all") →
        process_lvq_pak n md fs kind = .error e →
        ∀ k, e ≠ .unsupportedKindError k) := by
  constructor
  · intro n md fs kind h1 h2 h3
    rw [process_lvq_pak, if_neg h1, if_neg h2, if_neg h3]
  · intro n md fs kind e hks he k
    rcases process_lvq_pak_error_inv he with ⟨hne, hne2, hne3, -⟩ | h' | ⟨w, s, h'⟩ | h'
    · rcases hks with rfl | rfl | rfl
      · exact absurd rfl hne
      · exact absurd rfl hne2
      · exact absurd rfl hne3
    · rw [h']; exact fun hco => Err.noConfusion hco
    · rw [h']; exact fun hco => Err.noConfusion hco
    · rw [h']; exact fun hco => Err.noConfusion hco

/-- C5 witness: `kind="bogus"` raises the unknown-kind error. -/
theorem claim_C5_unsupported_kind_witness :
    process_lvq_pak "lvq-pak" none ⟨[], []⟩ "bogus" =
      .error (.unsupportedKindError "bogus") :=
  claim_C5_unsupported_kind.1 "lvq-pak" none ⟨[], []⟩ "bogus"
    (by decide) (by decide) (by decide)

/-- C7: a missing metadata dictionary is replaced by an empty one before
the extraction call: `process_lvq_pak` hands `read_space_delimited` the
substituted dictionary (never `None`), and `process_raw_data` — which dies
on its unbound local before reaching its extraction call — never invokes
`extract_func` at all, on `None` or anything else (its result does not
depend on `extract_func`). -/
theorem claim_C7_metadata_substituted :
    (∀ md : Option Metadata,
        ∃ m : Metadata, lvq_metadata_arg md = some m ∧ m = md.getD []) ∧
    (∀ (n : String) (md : Option Metadata) (f : ExtractFunc),
        process_raw_data n md (some f) = process_raw_data n md none ∧
        process_raw_data n md (some f) =
          .error (.unboundLocalError "extract_function")) :=
  ⟨fun md => ⟨md.getD [], rfl, rfl⟩, fun _ _ _ => ⟨rfl, rfl⟩⟩

/-- C9: every call of `process_raw_data` — with `extract_func` omitted or
explicitly provided — evaluates the guard on the unassigned local
`extract_function` and fails with the unbound-name error instead of
returning a result. -/
theorem claim_C9_unbound_local :
    (∀ (n : String) (md : Option Metadata),
        process_raw_data n md none = .error (.unboundLocalError "extract_function")) ∧
    (∀ (n : String) (md : Option Metadata) (f : ExtractFunc),
        process_raw_data n md (some f) =
          .error (.unboundLocalError "extract_function")) :=
  ⟨fun _ _ => rfl, fun _ _ _ => rfl⟩

/-- C8 counterexample: both lvq-pak files parse successfully, but their
parsed data matrices have different widths (one and two columns), so
`kind='all'` raises the `np.vstack` shape error instead of returning the
concatenation. -/
theorem claim_C8_counterexample :
    (∃ d1 t1 m1, read_space_delimited [[], [], ['a', ' ', 'b']] [0, 1] true
        (lvq_metadata_arg none) = .ok (d1, t1, m1)) ∧
    (∃ d2 t2 m2, read_space_delimited [[], ['c', ' ', 'd', ' ', 'e']] [0] true
        (some []) = .ok (d2, t2, m2)) ∧
    process_lvq_pak "lvq-pak" none
        ⟨[[], [], ['a', ' ', 'b']], [[], ['c', ' ', 'd', ' ', 'e']]⟩ "all" =
      .error .valueError :=
  ⟨⟨_, _, _, rfl⟩, ⟨_, _, _, rfl⟩, rfl⟩

/-- C8 amended: when both lvq-pak files parse successfully AND their parsed
data matrices have the same width, `kind='all'` returns the row-wise
concatenation of the train data followed by the test data with the
concatenated targets; the `all` row count is the sum of the two row counts,
and when the two files contribute equal (±1) numbers of rows the train row
count is half (±1) of the `all` row count. -/
theorem claim_C8_all_concat (n : String) (md : Option Metadata) (fs : LvqFiles)
    (d1 d2 : DataMatrix) (l1 l2 : List Cell) (m1 m2 : Option Metadata)
    (h1 : read_space_delimited fs.ex1 [0, 1] true (lvq_metadata_arg md) =
      .ok (d1, .labels l1, m1))
    (h2 : read_space_delimited fs.ex2 [0] true m1 = .ok (d2, .labels l2, m2))
    (hw : d1.head?.map List.length = d2.head?.map List.length) :
    process_lvq_pak n md fs "all" =
        .ok (mkDsetOpts n m2 (d1 ++ d2) (.labels (l1 ++ l2))) ∧
    process_lvq_pak n md fs "train" = .ok (mkDsetOpts n m1 d1 (.labels l1)) ∧
    (d1 ++ d2).length = d1.length + d2.length ∧
    (Nat.dist d1.length d2.length ≤ 1 →
      Nat.dist (2 * d1.length) (d1 ++ d2).length ≤ 1) := by
  refine ⟨?_, ?_, by simp, ?_⟩
  · rw [process_lvq_pak, if_neg (by decide), if_neg (by decide), if_pos rfl]
    simp only [h1, h2, vstack_ok hw, npAppend]
  · rw [process_lvq_pak, if_pos rfl, h1]
  · intro hd
    rw [List.length_append, two_mul, Nat.dist_add_add_left]
    exact hd

/-- C8 amended witness: one data row in each file, equal widths. -/
theorem claim_C8_all_concat_witness :
    process_lvq_pak "lvq-pak" none
        ⟨[[], [], ['a', ' ', 'b']], [[], ['c', ' ', 'd']]⟩ "all" =
      .ok (mkDsetOpts "lvq-pak" (some []) [[some ['a']], [some ['c']]]
        (.labels [some ['b'], some ['d']])) :=
  (claim_C8_all_concat "lvq-pak" none ⟨[[], [], ['a', ' ', 'b']], [[], ['c', ' ', 'd']]⟩
    [[some ['a']]] [[some ['c']]] [some ['b']] [some ['d']] (some []) (some [])
    rfl rfl rfl).1

/-- C10: every successful result of the processing functions is a
dictionary carrying all four keys, `target` included; and with no label
column requested the parser's target is the zero vector with one entry per
data row (`process_raw_data` has no successful calls, so the property holds
for it vacuously). -/
theorem claim_C10_four_keys :
    (∀ (n : String) (md : Option Metadata) (fs : LvqFiles) (kind : String)
        (o : DsetOpts),
        process_lvq_pak n md fs kind = .ok o →
        (o.lookup "dataset_name").isSome ∧ (o.lookup "data").isSome ∧
          (o.lookup "target").isSome ∧ (o.lookup "metadata").isSome) ∧
    (∀ (n : String) (md : Option Metadata) (ef : Option ExtractFunc) (o : DsetOpts),
        process_raw_data n md ef = .ok o →
        (o.lookup "dataset_name").isSome ∧ (o.lookup "data").isSome ∧
          (o.lookup "target").isSome ∧ (o.lookup "metadata").isSome) ∧
    (∀ (lines : List Line) (skiprows : List Nat) (md : Option Metadata)
        (d : DataMatrix) (t : Target) (md' : Option Metadata),
        read_space_delimited lines skiprows false md = .ok (d, t, md') →
        t = .zeros d.length) := by
  refine ⟨?_, ?_, ?_⟩
  · intro n md fs kind o h
    obtain ⟨m, d, t, rfl⟩ := process_lvq_pak_ok_shape h
    exact ⟨rfl, rfl, rfl, rfl⟩
  · intro n md ef o h
    simp [process_raw_data] at h
  · intro lines skiprows md d t md' h
    have hinv := readKept_ok_inv h
    rw [hinv.2.2.2 rfl, hinv.1]

/-- C10 witness: the `train` output of a one-row file has all four keys. -/
theorem claim_C10_four_keys_witness :
    ((mkDsetOpts "lvq-pak" (some []) [[some ['a']]]
        (.labels [some ['b']])).lookup "dataset_name").isSome ∧
    ((mkDsetOpts "lvq-pak" (some []) [[some ['a']]]
        (.labels [some ['b']])).lookup "data").isSome ∧
    ((mkDsetOpts "lvq-pak" (some []) [[some ['a']]]
        (.labels [some ['b']])).lookup "target").isSome ∧
    ((mkDsetOpts "lvq-pak" (some []) [[some ['a']]]
        (.labels [some ['b']])).lookup "metadata").isSome :=
  claim_C10_four_keys.1 "lvq-pak" none ⟨[[], [], ['a', ' ', 'b']], []⟩ "train"
    (mkDsetOpts "lvq-pak" (some []) [[some ['a']]] (.labels [some ['b']])) rfl
